import Mathlib

/-!
Shallow embedding of the comment subsystem of the content-platform backend
(`src/services/comment_service.py`, `src/api/comments.py`,
`src/models/comment.py`), together with theorems checking the
natural-language specification's claims against it.

Timestamps are modelled as natural numbers, the relational store as explicit
lists of rows, and the Redis cache as an association list with explicit
expiry bookkeeping.  Python's `Query.first()` is modelled by `List.find?`,
and an ORM mutation of the fetched row by `updateFirst` (update of the first
row matching the same predicate).
-/

namespace CommentApp

/-- A row of the `comments` table (`src/models/comment.py`, class `Comment`). -/
structure Comment where
  id : Nat
  content : String
  article_id : Nat
  author_id : Nat
  parent_id : Option Nat
  is_approved : Bool
  is_deleted : Bool
  is_flagged : Bool
  flagged_reason : Option String
  moderated_by : Option Nat
  moderated_at : Option Nat
  created_at : Nat
  deriving Repr, DecidableEq

/-- A row of the `reactions` table (`src/models/comment.py`, class `Reaction`). -/
structure Reaction where
  id : Nat
  reaction_type : String
  article_id : Option Nat
  comment_id : Nat
  user_id : Nat
  created_at : Nat
  deriving Repr, DecidableEq

/-- The slice of an `articles` row the comment subsystem touches:
its id and the denormalized `comment_count`. -/
structure Article where
  id : Nat
  comment_count : Nat
  deriving Repr, DecidableEq

/-- The relational store, plus primary-key generators. -/
structure DB where
  comments : List Comment
  reactions : List Reaction
  articles : List Article
  nextCommentId : Nat
  nextReactionId : Nat
  deriving Repr, DecidableEq

/-- Update the first element of a list satisfying `p` by `f`
(an ORM mutation of the row fetched with `.first()`). -/
def updateFirst (p : α → Bool) (f : α → α) : List α → List α
  | [] => []
  | x :: xs => if p x then f x :: xs else x :: updateFirst p f xs

/-- `GREATEST(0, c + delta)`: the floored-at-zero counter arithmetic used by
the SQL statement in `_update_comment_count`. -/
def adjCount (c : Nat) (delta : Int) : Nat := ((c : Int) + delta).toNat

/-- A Redis value used by the rate limiter: a counter with an optional
absolute expiry instant. -/
structure CacheEntry where
  count : Nat
  expires_at : Option Nat
  deriving Repr, DecidableEq

/-- The Redis cache as an association list from keys to counter entries. -/
structure Cache where
  entries : List (String × CacheEntry)
  deriving Repr, DecidableEq

/-- Raw lookup of a key, ignoring expiry. -/
def Cache.lookupRaw (c : Cache) (key : String) : Option CacheEntry :=
  (c.entries.find? (fun e => e.1 == key)).map (·.2)

/-- Lookup of a key at instant `now`: an entry whose expiry has passed is gone. -/
def Cache.lookupLive (c : Cache) (now : Nat) (key : String) : Option CacheEntry :=
  match c.lookupRaw key with
  | none => none
  | some e =>
    match e.expires_at with
    | none => some e
    | some t => if t ≤ now then none else some e

/-- Store `entry` under `key`, replacing any previous binding. -/
def Cache.setEntry (c : Cache) (key : String) (entry : CacheEntry) : Cache :=
  { entries := (key, entry) :: c.entries.filter (fun e => e.1 != key) }

/-- Redis `INCR`: a missing or expired key restarts at 1 (with no expiry yet);
a live key's counter is bumped, keeping its expiry. -/
def Cache.incr (c : Cache) (now : Nat) (key : String) : Nat × Cache :=
  match c.lookupLive now key with
  | none => (1, c.setEntry key { count := 1, expires_at := none })
  | some e => (e.count + 1, c.setEntry key { e with count := e.count + 1 })

/-- Redis `EXPIRE key seconds`: set the key's expiry to `now + seconds`. -/
def Cache.expireKey (c : Cache) (key : String) (seconds now : Nat) : Cache :=
  match c.lookupRaw key with
  | none => c
  | some e => c.setEntry key { e with expires_at := some (now + seconds) }

/-- The effective counter value of a key at instant `now` (0 if absent/expired). -/
def Cache.effCount (c : Cache) (now : Nat) (key : String) : Nat :=
  match c.lookupLive now key with
  | none => 0
  | some e => e.count

/-- The rate-limiter key for a user, `f"comment_rate:{user_id}"`. -/
def rateKey (user_id : Nat) : String := "comment_rate:" ++ toString user_id

/-- `ORDER BY created_at DESC`: `a` may come before `b` when `a` is at least
as recent. -/
def newerFirst (a b : Comment) : Prop := b.created_at ≤ a.created_at

/-- `ORDER BY created_at ASC`: `a` may come before `b` when `a` is at least
as old. -/
def olderFirst (a b : Comment) : Prop := a.created_at ≤ b.created_at

instance : DecidableRel newerFirst :=
  fun a b => inferInstanceAs (Decidable (b.created_at ≤ a.created_at))

instance : DecidableRel olderFirst :=
  fun a b => inferInstanceAs (Decidable (a.created_at ≤ b.created_at))

instance : IsTotal Comment newerFirst :=
  ⟨fun a b => Nat.le_total b.created_at a.created_at⟩

instance : IsTrans Comment newerFirst :=
  ⟨fun _ _ _ hab hbc => Nat.le_trans hbc hab⟩

namespace CommentService

/-- `CommentService._update_comment_count`: the atomic SQL
`UPDATE articles SET comment_count = GREATEST(0, comment_count + :delta)
WHERE id = :id`. -/
def update_comment_count (db : DB) (article_id : Nat) (delta : Int) : DB :=
  { db with
    articles := db.articles.map (fun a =>
      if a.id == article_id then { a with comment_count := adjCount a.comment_count delta }
      else a) }

/-- `CommentService.create`: insert a new comment row (approved, not flagged,
not deleted, timestamps fresh) and atomically bump the article's count by 1. -/
def create (db : DB) (now : Nat) (content : String) (article_id author_id : Nat)
    (parent_id : Option Nat) : Comment × DB :=
  let comment : Comment :=
    { id := db.nextCommentId
      content := content
      article_id := article_id
      author_id := author_id
      parent_id := parent_id
      is_approved := true
      is_deleted := false
      is_flagged := false
      flagged_reason := none
      moderated_by := none
      moderated_at := none
      created_at := now }
  let db := { db with
    comments := db.comments ++ [comment]
    nextCommentId := db.nextCommentId + 1 }
  (comment, update_comment_count db article_id 1)

/-- `CommentService.delete`: soft delete.  Fetches the first comment with the
given id and author (note: with no `is_deleted` filter), tombstones it, and
atomically decrements the article's count. -/
def delete (db : DB) (comment_id author_id : Nat) : Bool × DB :=
  match db.comments.find? (fun c => c.id == comment_id && c.author_id == author_id) with
  | none => (false, db)
  | some c =>
    let db := { db with
      comments := updateFirst (fun x => x.id == comment_id && x.author_id == author_id)
        (fun x => { x with is_deleted := true, content := "[Comment removed]" })
        db.comments }
    (true, update_comment_count db c.article_id (-1))

/-- The filter of `CommentService.get_article_comments`: comments of the
article that are top-level (`parent_id IS NULL`) and approved.  (The query
has no `is_deleted` filter.) -/
def topLevelApproved (db : DB) (article_id : Nat) : List Comment :=
  db.comments.filter (fun c =>
    c.article_id == article_id && c.parent_id == none && c.is_approved)

/-- `ORDER BY created_at DESC`, modelled as a stable insertion sort. -/
def newestFirst (l : List Comment) : List Comment :=
  l.insertionSort newerFirst

/-- `CommentService.get_article_comments`: top-level approved comments of the
article, newest first, with offset/limit pagination. -/
def get_article_comments (db : DB) (article_id : Nat) (page : Nat := 1)
    (per_page : Nat := 50) : List Comment :=
  ((newestFirst (topLevelApproved db article_id)).drop ((page - 1) * per_page)).take per_page

/-- The loop body of `CommentService.get_comment_depth`, with explicit fuel.
Python: `while current_id:` look up the row; stop when the row is missing or
has no parent; otherwise hop to the parent and count. -/
def depthWalk (db : DB) : Nat → Nat → Nat → Nat
  | 0, _, depth => depth
  | fuel + 1, current_id, depth =>
    if current_id == 0 then depth
    else
      match db.comments.find? (fun c => c.id == current_id) with
      | none => depth
      | some c =>
        match c.parent_id with
        | none => depth
        | some p => depthWalk db fuel p (depth + 1)

/-- `CommentService.get_comment_depth`: number of parent hops from the comment
to a top-level comment.  Fuel `db.comments.length + 1` suffices for every
store whose parent chains are acyclic. -/
def get_comment_depth (db : DB) (comment_id : Nat) : Nat :=
  depthWalk db (db.comments.length + 1) comment_id 0

/-- `CommentService.check_rate_limit`: with no cache configured, fail open;
otherwise `INCR` the user's window key, set a one-hour expiry exactly when the
incremented count is 1, and allow iff the count is at most 10. -/
def check_rate_limit (cache : Option Cache) (now user_id : Nat) : Bool × Option Cache :=
  match cache with
  | none => (true, none)
  | some c =>
    let key := rateKey user_id
    let (count, c) := c.incr now key
    let c := if count == 1 then c.expireKey key 3600 now else c
    (count ≤ 10, some c)

/-- `CommentService.toggle_reaction`: fetch the user's existing reaction row on
the comment; delete it on a same-kind repeat, mutate its kind on a different
kind, or insert a fresh row when none exists. -/
def toggle_reaction (db : DB) (now : Nat) (comment_id user_id : Nat)
    (reaction_type : String) : String × DB :=
  match db.reactions.find? (fun r => r.comment_id == comment_id && r.user_id == user_id) with
  | some existing =>
    if existing.reaction_type == reaction_type then
      ("removed", { db with reactions := db.reactions.filter (fun r => r.id != existing.id) })
    else
      ("changed", { db with reactions := db.reactions.map (fun r =>
        if r.id == existing.id then { r with reaction_type := reaction_type } else r) })
  | none =>
    let reaction : Reaction :=
      { id := db.nextReactionId
        reaction_type := reaction_type
        article_id := none
        comment_id := comment_id
        user_id := user_id
        created_at := now }
    ("added", { db with
      reactions := db.reactions ++ [reaction]
      nextReactionId := db.nextReactionId + 1 })

/-- The number of stored reactions of a given kind on a comment
(the database branch of `get_reaction_counts`). -/
def countKind (db : DB) (comment_id : Nat) (kind : String) : Nat :=
  (db.reactions.filter (fun r =>
    r.comment_id == comment_id && r.reaction_type == kind)).length

/-- `CommentService.get_reaction_counts`, database branch: counts for the five
enumerated kinds, zero-defaulted. -/
def get_reaction_counts (db : DB) (comment_id : Nat) : List (String × Nat) :=
  ["like", "love", "angry", "sad", "wow"].map (fun k => (k, countKind db comment_id k))

/-- `CommentService.flag_comment`: fetch the comment; when present, set the
flag and record the latest reason.  When absent, nothing happens at all. -/
def flag_comment (db : DB) (comment_id reporter_id : Nat) (reason : String) : DB :=
  match db.comments.find? (fun c => c.id == comment_id) with
  | none => db
  | some _ =>
    { db with
      comments := updateFirst (fun c => c.id == comment_id)
        (fun c => { c with is_flagged := true, flagged_reason := some reason })
        db.comments }

/-- `CommentService.get_moderation_queue`: flagged, non-deleted comments,
oldest first. -/
def get_moderation_queue (db : DB) : List Comment :=
  (db.comments.filter (fun c => c.is_flagged && !c.is_deleted)).insertionSort olderFirst

/-- The field updates `CommentService.moderate` applies for a given action
string (the `if action == ...` chain). -/
def moderateAction (action : String) (c : Comment) : Comment :=
  if action == "approve" then { c with is_flagged := false, is_approved := true }
  else if action == "reject" then { c with is_approved := false }
  else if action == "delete" then
    { c with is_deleted := true, content := "[Removed by moderator]" }
  else c

/-- The full per-comment mutation of `CommentService.moderate`: the action's
field updates followed by the `moderated_by`/`moderated_at` stamp. -/
def moderateStamp (action : String) (moderator_id now : Nat) (c : Comment) : Comment :=
  { moderateAction action c with
    moderated_by := some moderator_id
    moderated_at := some now }

/-- `CommentService.moderate`: fetch the comment (Python dereferences the
result unconditionally, so a missing comment raises — modelled as `none`),
apply the action's field updates, decrement the article count on `delete`,
and stamp `moderated_by`/`moderated_at`. -/
def moderate (db : DB) (now : Nat) (comment_id moderator_id : Nat)
    (action : String) : Option (Comment × DB) :=
  match db.comments.find? (fun c => c.id == comment_id) with
  | none => none
  | some c0 =>
    let db := { db with comments := (updateFirst (fun c => c.id == comment_id)
      (moderateStamp action moderator_id now) db.comments) }
    let db := if action == "delete" then update_comment_count db c0.article_id (-1) else db
    some (moderateStamp action moderator_id now c0, db)

end CommentService

/-- The outcome of `POST /api/comments/` (`create_comment` in
`src/api/comments.py`). -/
inductive CreateResult where
  | rateLimited
  | depthLimited
  | created (c : Comment)
  deriving Repr, DecidableEq

/-- Python truthiness of `request.parent_id` (`if request.parent_id:`). -/
def optionTruthy : Option Nat → Bool
  | none => false
  | some n => n != 0

/-- `create_comment` in `src/api/comments.py`: rate-limit check, then (for a
truthy `parent_id`) the depth-3 check, then the service-level create.  There
is no content validation and no article/parent existence check. -/
def api_create_comment (db : DB) (cache : Option Cache) (now : Nat) (content : String)
    (article_id author_id : Nat) (parent_id : Option Nat) :
    CreateResult × DB × Option Cache :=
  let rl := CommentService.check_rate_limit cache now author_id
  if !rl.1 then (.rateLimited, db, rl.2)
  else if optionTruthy parent_id &&
      CommentService.get_comment_depth db (parent_id.getD 0) ≥ 3 then
    (.depthLimited, db, rl.2)
  else
    let cd := CommentService.create db now content article_id author_id parent_id
    (.created cd.1, cd.2, rl.2)

/-- `flag_comment` in `src/api/comments.py`: delegates to the service and
returns the acknowledgment message unconditionally. -/
def api_flag_comment (db : DB) (comment_id reporter_id : Nat) (reason : String) :
    String × DB :=
  ("Comment flagged for review", CommentService.flag_comment db comment_id reporter_id reason)

/-- The reaction kinds accepted by `add_reaction` in `src/api/comments.py`. -/
def reaction_types : List String := ["like", "love", "angry", "sad", "wow"]

/-- `add_reaction` in `src/api/comments.py`: reject an unrecognized kind,
otherwise toggle.  There is no check that the comment exists. -/
def api_add_reaction (db : DB) (now : Nat) (comment_id user_id : Nat)
    (reaction_type : String) : Option (String × DB) :=
  if reaction_types.contains reaction_type then
    some (CommentService.toggle_reaction db now comment_id user_id reaction_type)
  else none

/-- The stored reaction rows of a given (comment, user) pair. -/
def pairRows (db : DB) (comment_id user_id : Nat) : List Reaction :=
  db.reactions.filter (fun r => r.comment_id == comment_id && r.user_id == user_id)

/-- One `toggle_reaction` request (the arguments of a call). -/
structure TOp where
  comment_id : Nat
  user_id : Nat
  kind : String
  deriving Repr, DecidableEq

/-- Sequential execution of a list of toggle requests. -/
def applyToggles (db : DB) (ops : List TOp) : DB :=
  ops.foldl (fun db op =>
    (CommentService.toggle_reaction db 0 op.comment_id op.user_id op.kind).2) db

/-- The operations claim C1 ranges over: service-level comment creation,
author self-deletion, and moderator deletion. -/
inductive Op where
  | createC (content : String) (article_id author_id : Nat) (parent_id : Option Nat)
  | selfDelete (comment_id author_id : Nat)
  | modDelete (comment_id moderator_id : Nat)
  deriving Repr, DecidableEq

/-- Execute one operation.  A `moderate` call on a missing comment raises in
Python before any write, so the store is returned unchanged. -/
def applyOp (db : DB) : Op → DB
  | .createC content aid uid pid => (CommentService.create db 0 content aid uid pid).2
  | .selfDelete cid uid => (CommentService.delete db cid uid).2
  | .modDelete cid mid =>
    match CommentService.moderate db 0 cid mid "delete" with
    | none => db
    | some p => p.2

/-- Sequential execution of a list of operations. -/
def applyOps (db : DB) (ops : List Op) : DB := ops.foldl applyOp db

/-- The number of non-deleted comments of an article in a list of rows. -/
def liveLen (l : List Comment) (article_id : Nat) : Nat :=
  (l.filter (fun c => c.article_id == article_id && !c.is_deleted)).length

/-- The number of non-deleted stored comments of an article. -/
def liveCount (db : DB) (article_id : Nat) : Nat := liveLen db.comments article_id

/-- The comment-count invariant: every stored article's denormalized
`comment_count` equals its number of non-deleted comments. -/
def CountInv (db : DB) : Prop :=
  ∀ a ∈ db.articles, a.comment_count = liveCount db a.id

/-- A delete operation is clean when the row it would fetch (if any) is not
already deleted; creations are always clean. -/
def okOp (db : DB) : Op → Bool
  | .createC _ _ _ _ => true
  | .selfDelete cid uid =>
    match db.comments.find? (fun x => x.id == cid && x.author_id == uid) with
    | none => true
    | some c => !c.is_deleted
  | .modDelete cid _ =>
    match db.comments.find? (fun x => x.id == cid) with
    | none => true
    | some c => !c.is_deleted

/-- Every operation of the sequence is clean in the state it executes in. -/
def okSeq : DB → List Op → Bool
  | _, [] => true
  | db, op :: ops => okOp db op && okSeq (applyOp db op) ops

/-- The raw expiry bookkeeping of a key: `none` when the key is absent,
`some e` when an entry with expiry field `e` is stored. -/
def Cache.rawExpiry (c : Cache) (key : String) : Option (Option Nat) :=
  (c.lookupRaw key).map (·.expires_at)

/-- The results of `n` consecutive rate-limit checks for one user. -/
def runChecks (cache : Option Cache) (now user_id : Nat) : Nat → List Bool
  | 0 => []
  | n + 1 =>
    let r := CommentService.check_rate_limit cache now user_id
    r.1 :: runChecks r.2 now user_id n

/-- A store holding one article (id 1, zero comments) and nothing else. -/
def oneArticleDB : DB :=
  { comments := [], reactions := [], articles := [{ id := 1, comment_count := 0 }],
    nextCommentId := 1, nextReactionId := 1 }

/-- Concrete store for claim C1: article 1 with a zeroed counter. -/
def dbC1 : DB := oneArticleDB

/-- Concrete operation sequence for claim C1: two creations, then the same
comment self-deleted twice. -/
def opsC1 : List Op :=
  [.createC "a" 1 7 none, .createC "b" 1 7 none, .selfDelete 1 7, .selfDelete 1 7]

/-- Concrete store and operations for claim C1's amended statement. -/
def dbC1w : DB := oneArticleDB

/-- A clean sequence: create three comments, self-delete one, moderator-delete
another, each delete hitting a live comment. -/
def opsC1w : List Op :=
  [.createC "a" 1 7 none, .createC "b" 1 7 none, .createC "c" 1 8 (some 1),
   .selfDelete 1 7, .modDelete 3 5]

/-- Concrete stores for scenario A of the spec (claim C2): article 1, then a
reply chain `C1 ← C2 ← C3 ← C4` built through the API. -/
def dbA0 : DB := oneArticleDB

/-- Scenario A after creating the top-level comment. -/
def dbA1 : DB := (api_create_comment dbA0 none 0 "c1" 1 9 none).2.1

/-- Scenario A after replying to the top-level comment. -/
def dbA2 : DB := (api_create_comment dbA1 none 1 "c2" 1 9 (some 1)).2.1

/-- Scenario A after the depth-2 reply. -/
def dbA3 : DB := (api_create_comment dbA2 none 2 "c3" 1 9 (some 2)).2.1

/-- Scenario A after the depth-3 reply. -/
def dbA4 : DB := (api_create_comment dbA3 none 3 "c4" 1 9 (some 3)).2.1

/-- Concrete store for claim C3: no reactions yet. -/
def dbC3 : DB := oneArticleDB

/-- Claim C3's store after one `like` toggle by user 7 on comment 1. -/
def dbC3liked : DB := (CommentService.toggle_reaction dbC3 0 1 7 "like").2

/-- Concrete store for claim C4. -/
def dbC4 : DB := oneArticleDB

/-- Concrete toggle requests for claim C4. -/
def opsC4 : List TOp :=
  [{ comment_id := 1, user_id := 7, kind := "like" },
   { comment_id := 1, user_id := 7, kind := "love" },
   { comment_id := 1, user_id := 8, kind := "wow" },
   { comment_id := 1, user_id := 7, kind := "love" }]

/-- Concrete store for claim C5: one approved, deleted, top-level comment. -/
def dbC5 : DB :=
  { comments := [{ id := 1, content := "[Comment removed]", article_id := 1,
                   author_id := 7, parent_id := none, is_approved := true,
                   is_deleted := true, is_flagged := false, flagged_reason := none,
                   moderated_by := none, moderated_at := none, created_at := 5 }],
    reactions := [], articles := [{ id := 1, comment_count := 0 }],
    nextCommentId := 2, nextReactionId := 1 }

/-- A second concrete store for claim C5's witness: two approved top-level
comments with distinct timestamps. -/
def dbC5w : DB :=
  { comments := [{ id := 1, content := "old", article_id := 1,
                   author_id := 7, parent_id := none, is_approved := true,
                   is_deleted := false, is_flagged := false, flagged_reason := none,
                   moderated_by := none, moderated_at := none, created_at := 5 },
                 { id := 2, content := "new", article_id := 1,
                   author_id := 8, parent_id := none, is_approved := true,
                   is_deleted := false, is_flagged := false, flagged_reason := none,
                   moderated_by := none, moderated_at := none, created_at := 9 }],
    reactions := [], articles := [{ id := 1, comment_count := 2 }],
    nextCommentId := 3, nextReactionId := 1 }

/-- The empty cache, for claim C6. -/
def emptyCache : Cache := { entries := [] }

/-- Concrete store for claim C7: article 1 exists, comment 99 does not. -/
def dbC7 : DB := oneArticleDB

/-- Concrete store for claim C8: article 1 exists, no comments. -/
def dbC8 : DB := oneArticleDB

/-- The comment stored in claim C9's concrete store: approved, not flagged,
never moderated. -/
def c9comment : Comment :=
  { id := 1, content := "hello", article_id := 1, author_id := 7,
    parent_id := none, is_approved := true, is_deleted := false,
    is_flagged := false, flagged_reason := none, moderated_by := none,
    moderated_at := none, created_at := 5 }

/-- Concrete store for claim C9. -/
def dbC9 : DB :=
  { comments := [c9comment], reactions := [],
    articles := [{ id := 1, comment_count := 1 }],
    nextCommentId := 2, nextReactionId := 1 }

/-- The comment stored in claim C10's concrete store: flagged, awaiting
review. -/
def c10comment : Comment :=
  { id := 1, content := "spicy", article_id := 1, author_id := 7,
    parent_id := none, is_approved := true, is_deleted := false,
    is_flagged := true, flagged_reason := some "spam", moderated_by := none,
    moderated_at := none, created_at := 5 }

/-- Concrete store for claim C10. -/
def dbC10 : DB :=
  { comments := [c10comment], reactions := [],
    articles := [{ id := 1, comment_count := 1 }],
    nextCommentId := 2, nextReactionId := 1 }

/-- Agreement on every field of a comment other than the moderation fields
`is_flagged`, `is_approved`, `moderated_by`, `moderated_at`. -/
def frameEq (a b : Comment) : Prop :=
  a.id = b.id ∧ a.content = b.content ∧ a.article_id = b.article_id ∧
  a.author_id = b.author_id ∧ a.parent_id = b.parent_id ∧
  a.is_deleted = b.is_deleted ∧ a.flagged_reason = b.flagged_reason ∧
  a.created_at = b.created_at

end CommentApp

namespace CommentApp

theorem find?_eq_none_of_filter_eq_nil {α : Type} {p : α → Bool} {l : List α}
    (h : l.filter p = []) : l.find? p = none := by
  rw [List.find?_eq_none]
  intro x hx hpx
  have hmem : x ∈ l.filter p := List.mem_filter.mpr ⟨hx, hpx⟩
  rw [h] at hmem
  cases hmem

theorem find?_eq_some_of_filter_eq_singleton {α : Type} {p : α → Bool} :
    ∀ {l : List α} {a : α}, l.filter p = [a] → l.find? p = some a := by
  intro l
  induction l with
  | nil => intro a h; simp at h
  | cons x xs ih =>
    intro a h
    by_cases hx : p x = true
    · rw [List.filter_cons_of_pos hx] at h
      injection h with h1 h2
      rw [List.find?_cons_of_pos _ hx, h1]
    · rw [List.filter_cons_of_neg (by simpa using hx)] at h
      rw [List.find?_cons_of_neg _ (by simpa using hx)]
      exact ih h

theorem updateFirst_decomp {α : Type} {p : α → Bool} (f : α → α) :
    ∀ {l : List α} {c : α}, l.find? p = some c →
      ∃ l1 l2, l = l1 ++ c :: l2 ∧ p c = true ∧
        updateFirst p f l = l1 ++ f c :: l2 := by
  intro l
  induction l with
  | nil => intro c h; simp at h
  | cons x xs ih =>
    intro c h
    by_cases hx : p x = true
    · rw [List.find?_cons_of_pos _ hx] at h
      injection h with h1
      subst h1
      exact ⟨[], xs, rfl, hx, by simp [updateFirst, hx]⟩
    · rw [List.find?_cons_of_neg _ (by simpa using hx)] at h
      obtain ⟨l1, l2, hsplit, hpc, hup⟩ := ih h
      refine ⟨x :: l1, l2, by simp [hsplit], hpc, ?_⟩
      simp [updateFirst, hx, hup]

theorem adjCount_add_one (c : Nat) : adjCount c 1 = c + 1 := by
  unfold adjCount; omega

theorem adjCount_sub_one (c : Nat) (h : 1 ≤ c) : adjCount c (-1) = c - 1 := by
  unfold adjCount; omega

theorem liveLen_append (l1 l2 : List Comment) (aid : Nat) :
    liveLen (l1 ++ l2) aid = liveLen l1 aid + liveLen l2 aid := by
  simp [liveLen, List.filter_append]

theorem liveLen_cons (c : Comment) (l : List Comment) (aid : Nat) :
    liveLen (c :: l) aid =
      (if c.article_id = aid ∧ c.is_deleted = false then 1 else 0) + liveLen l aid := by
  simp only [liveLen, List.filter_cons]
  by_cases h1 : c.article_id = aid
  · by_cases h2 : c.is_deleted
    · simp [h1, h2]
    · simp [h1, h2, Nat.add_comm]
  · simp [h1]

end CommentApp

namespace CommentApp

theorem pairRows_filter_eq (db : DB) (cid uid : Nat) :
    pairRows db cid uid =
      db.reactions.filter (fun r => r.comment_id == cid && r.user_id == uid) := rfl

/-- Claim C3: `toggle_reaction(comment_id, user_id, kind)` inserts a fresh row
and reports `added` when the user has no reaction on the comment; deletes the
row and reports `removed` when the existing reaction has the same kind; and
mutates the kind in place and reports `changed` when it differs. -/
theorem C3_toggle_reaction (db : DB) (now cid uid : Nat) (k : String) :
    (pairRows db cid uid = [] →
      (CommentService.toggle_reaction db now cid uid k).1 = "added" ∧
      pairRows (CommentService.toggle_reaction db now cid uid k).2 cid uid =
        [{ id := db.nextReactionId, reaction_type := k, article_id := none,
           comment_id := cid, user_id := uid, created_at := now }]) ∧
    (∀ ex, pairRows db cid uid = [ex] → ex.reaction_type = k →
      (CommentService.toggle_reaction db now cid uid k).1 = "removed" ∧
      pairRows (CommentService.toggle_reaction db now cid uid k).2 cid uid = []) ∧
    (∀ ex, pairRows db cid uid = [ex] → ex.reaction_type ≠ k →
      (CommentService.toggle_reaction db now cid uid k).1 = "changed" ∧
      pairRows (CommentService.toggle_reaction db now cid uid k).2 cid uid =
        [{ ex with reaction_type := k }]) := by
  refine ⟨?_, ?_, ?_⟩
  · intro h
    have hf : db.reactions.find? (fun r => r.comment_id == cid && r.user_id == uid) = none :=
      find?_eq_none_of_filter_eq_nil h
    refine ⟨by simp [CommentService.toggle_reaction, hf], ?_⟩
    rw [pairRows_filter_eq] at h
    simp [CommentService.toggle_reaction, hf, pairRows, List.filter_append, h]
  · intro ex hex hk
    have hf : db.reactions.find? (fun r => r.comment_id == cid && r.user_id == uid) = some ex :=
      find?_eq_some_of_filter_eq_singleton hex
    have hbeq : (ex.reaction_type == k) = true := by simp [hk]
    refine ⟨by simp [CommentService.toggle_reaction, hf, hbeq], ?_⟩
    simp only [CommentService.toggle_reaction, hf, hbeq, if_pos]
    rw [pairRows_filter_eq, List.filter_eq_nil_iff]
    intro x hx hpair
    obtain ⟨hxR, hxid⟩ := List.mem_filter.mp hx
    have hxpair : x ∈ pairRows db cid uid := List.mem_filter.mpr ⟨hxR, hpair⟩
    rw [hex, List.mem_singleton] at hxpair
    subst hxpair
    simp at hxid
  · intro ex hex hk
    have hf : db.reactions.find? (fun r => r.comment_id == cid && r.user_id == uid) = some ex :=
      find?_eq_some_of_filter_eq_singleton hex
    have hbeq : (ex.reaction_type == k) = false := by
      simpa using hk
    refine ⟨by simp [CommentService.toggle_reaction, hf, hbeq], ?_⟩
    simp only [CommentService.toggle_reaction, hf, hbeq, Bool.false_eq_true, if_false]
    rw [pairRows_filter_eq]
    rw [List.filter_map]
    have hcongr : ∀ r ∈ db.reactions,
        ((fun r : Reaction => r.comment_id == cid && r.user_id == uid) ∘
          (fun r : Reaction => if r.id == ex.id then { r with reaction_type := k } else r)) r =
        (fun r : Reaction => r.comment_id == cid && r.user_id == uid) r := by
      intro r _
      by_cases hid : r.id = ex.id
      · simp [hid]
      · simp [hid]
    rw [List.filter_congr hcongr]
    rw [← pairRows_filter_eq, hex]
    simp

end CommentApp

namespace CommentApp

/-- Witness for C3: at concrete stores, the three toggle branches of
`C3_toggle_reaction` produce `added`, then `removed`, then `changed`. -/
theorem C3_toggle_reaction_witness :
    (CommentService.toggle_reaction dbC3 0 1 7 "like").1 = "added" ∧
    (CommentService.toggle_reaction dbC3liked 0 1 7 "like").1 = "removed" ∧
    (CommentService.toggle_reaction dbC3liked 0 1 7 "love").1 = "changed" := by
  refine ⟨((C3_toggle_reaction dbC3 0 1 7 "like").1 (by decide)).1, ?_, ?_⟩
  · exact ((C3_toggle_reaction dbC3liked 0 1 7 "like").2.1
      { id := 1, reaction_type := "like", article_id := none, comment_id := 1,
        user_id := 7, created_at := 0 } (by decide) (by decide)).1
  · exact ((C3_toggle_reaction dbC3liked 0 1 7 "love").2.2
      { id := 1, reaction_type := "like", article_id := none, comment_id := 1,
        user_id := 7, created_at := 0 } (by decide) (by decide)).1

theorem toggle_pairRows_le_one (db : DB) (now c u : Nat) (k : String) (cid uid : Nat)
    (h : (pairRows db cid uid).length ≤ 1) :
    (pairRows (CommentService.toggle_reaction db now c u k).2 cid uid).length ≤ 1 := by
  unfold CommentService.toggle_reaction
  cases hf : db.reactions.find? (fun r => r.comment_id == c && r.user_id == u) with
  | none =>
    simp only
    rw [pairRows_filter_eq] at h ⊢
    simp only [List.filter_append, List.length_append]
    by_cases hcu : c = cid ∧ u = uid
    · obtain ⟨rfl, rfl⟩ := hcu
      have hnil : List.filter (fun r : Reaction => r.comment_id == c && r.user_id == u)
          db.reactions = [] := by
        rw [List.filter_eq_nil_iff]
        intro x hx hpx
        exact (List.find?_eq_none.mp hf x hx) hpx
      rw [hnil]
      simp
    · have hone : List.filter (fun r : Reaction => r.comment_id == cid && r.user_id == uid)
          [({ id := db.nextReactionId, reaction_type := k, article_id := none,
              comment_id := c, user_id := u, created_at := now } : Reaction)] = [] := by
        rcases not_and_or.mp hcu with h1 | h2
        · have h1' : (c == cid) = false := by simpa using h1
          simp [List.filter_cons, h1']
        · have h2' : (u == uid) = false := by simpa using h2
          simp [List.filter_cons, h2']
      rw [hone]
      simpa using h
  | some ex =>
    simp only
    by_cases hty : ex.reaction_type == k
    · rw [if_pos hty]
      simp only [pairRows_filter_eq] at h ⊢
      calc (List.filter (fun r => r.comment_id == cid && r.user_id == uid)
              (List.filter (fun r => r.id != ex.id) db.reactions)).length
          = (List.filter (fun r => r.id != ex.id)
              (List.filter (fun r => r.comment_id == cid && r.user_id == uid) db.reactions)).length := by
            simp [List.filter_filter, Bool.and_comm]
        _ ≤ (List.filter (fun r => r.comment_id == cid && r.user_id == uid) db.reactions).length :=
            List.length_filter_le _ _
        _ ≤ 1 := h
    · rw [if_neg hty]
      simp only [pairRows_filter_eq] at h ⊢
      rw [List.filter_map]
      have hcongr : ∀ r ∈ db.reactions,
          ((fun r : Reaction => r.comment_id == cid && r.user_id == uid) ∘
            (fun r : Reaction => if r.id == ex.id then { r with reaction_type := k } else r)) r =
          (fun r : Reaction => r.comment_id == cid && r.user_id == uid) r := by
        intro r _
        by_cases hid : r.id = ex.id
        · simp [hid]
        · simp [hid]
      rw [List.filter_congr hcongr]
      simpa using h

/-- Claim C4: starting from a store with no reaction rows for a given
(comment, user) pair, any sequence of sequentially executed toggle requests
leaves at most one reaction row for that pair. -/
theorem C4_at_most_one_reaction (db : DB) (cid uid : Nat) (ops : List TOp)
    (h : pairRows db cid uid = []) :
    (pairRows (applyToggles db ops) cid uid).length ≤ 1 := by
  suffices haux : ∀ ops : List TOp, ∀ db : DB, (pairRows db cid uid).length ≤ 1 →
      (pairRows (applyToggles db ops) cid uid).length ≤ 1 by
    exact haux ops db (by simp [h])
  intro ops
  induction ops with
  | nil => intro db hdb; simpa [applyToggles] using hdb
  | cons op rest ih =>
    intro db hdb
    have hstep := toggle_pairRows_le_one db 0 op.comment_id op.user_id op.kind cid uid hdb
    simpa [applyToggles] using ih _ hstep

/-- Witness for C4 at a concrete store and request sequence. -/
theorem C4_at_most_one_reaction_witness :
    (pairRows (applyToggles dbC4 opsC4) 1 7).length ≤ 1 :=
  C4_at_most_one_reaction dbC4 1 7 opsC4 (by decide)

end CommentApp

namespace CommentApp

theorem lookupRaw_setEntry (c : Cache) (key : String) (e : CacheEntry) :
    (c.setEntry key e).lookupRaw key = some e := by
  simp [Cache.setEntry, Cache.lookupRaw, List.find?_cons]

theorem lookupRaw_of_lookupLive {c : Cache} {now : Nat} {key : String} {e : CacheEntry}
    (h : c.lookupLive now key = some e) : c.lookupRaw key = some e := by
  unfold Cache.lookupLive at h
  cases hr : c.lookupRaw key with
  | none => simp [hr] at h
  | some e' =>
    simp only [hr] at h
    cases he : e'.expires_at with
    | none =>
      simp only [he] at h
      exact h
    | some t =>
      simp only [he] at h
      by_cases ht : t ≤ now
      · simp [if_pos ht] at h
      · simp only [if_neg ht] at h
        exact h

theorem notExpired_of_lookupLive {c : Cache} {now : Nat} {key : String} {e : CacheEntry}
    (h : c.lookupLive now key = some e) {t : Nat} (he : e.expires_at = some t) :
    ¬ t ≤ now := by
  have hr := lookupRaw_of_lookupLive h
  unfold Cache.lookupLive at h
  simp only [hr, he] at h
  by_cases ht : t ≤ now
  · simp [if_pos ht] at h
    -- h : False-ish: none = some e
  · exact ht

theorem setEntry_setEntry (c : Cache) (key : String) (e1 e2 : CacheEntry) :
    (c.setEntry key e1).setEntry key e2 = c.setEntry key e2 := by
  unfold Cache.setEntry
  simp [List.filter_cons, List.filter_filter]

theorem effCount_setEntry_future (c : Cache) (key : String) (n now t : Nat)
    (ht : now < t) :
    (c.setEntry key { count := n, expires_at := some t }).effCount now key = n := by
  unfold Cache.effCount Cache.lookupLive
  rw [lookupRaw_setEntry]
  simp only
  rw [if_neg (by omega)]

theorem effCount_setEntry_noExpiry (c : Cache) (key : String) (n now : Nat) :
    (c.setEntry key { count := n, expires_at := none }).effCount now key = n := by
  unfold Cache.effCount Cache.lookupLive
  rw [lookupRaw_setEntry]

theorem crl_eval_fresh {c : Cache} {now uid : Nat}
    (hl : c.lookupLive now (rateKey uid) = none) :
    CommentService.check_rate_limit (some c) now uid =
      (true, some (c.setEntry (rateKey uid)
        { count := 1, expires_at := some (now + 3600) })) := by
  unfold CommentService.check_rate_limit Cache.incr
  simp only [hl]
  unfold Cache.expireKey
  rw [lookupRaw_setEntry]
  simp [setEntry_setEntry]

theorem crl_eval_zero {c : Cache} {now uid : Nat} {e : CacheEntry}
    (hl : c.lookupLive now (rateKey uid) = some e) (h0 : e.count = 0) :
    CommentService.check_rate_limit (some c) now uid =
      (true, some (c.setEntry (rateKey uid)
        { count := 1, expires_at := some (now + 3600) })) := by
  unfold CommentService.check_rate_limit Cache.incr
  simp only [hl, h0]
  unfold Cache.expireKey
  rw [lookupRaw_setEntry]
  simp [setEntry_setEntry]

theorem crl_eval_bump {c : Cache} {now uid : Nat} {e : CacheEntry}
    (hl : c.lookupLive now (rateKey uid) = some e) (h0 : e.count ≠ 0) :
    CommentService.check_rate_limit (some c) now uid =
      (decide (e.count + 1 ≤ 10), some (c.setEntry (rateKey uid)
        { count := e.count + 1, expires_at := e.expires_at })) := by
  unfold CommentService.check_rate_limit Cache.incr
  simp only [hl]
  rw [if_neg (by simpa using h0)]

/-- Claim C6: a rate-limit check increments the user's effective window
counter by one, sets the one-hour expiry exactly on the first increment of a
window, and allows the request iff the post-increment count is at most 10; in
particular from a fresh window the first ten checks pass and the eleventh
fails. -/
theorem C6_check_rate_limit (c : Cache) (now uid : Nat) :
    (∃ c', (CommentService.check_rate_limit (some c) now uid).2 = some c' ∧
      c'.effCount now (rateKey uid) = c.effCount now (rateKey uid) + 1 ∧
      ((CommentService.check_rate_limit (some c) now uid).1 = true ↔
        c.effCount now (rateKey uid) + 1 ≤ 10) ∧
      (c.effCount now (rateKey uid) = 0 →
        c'.rawExpiry (rateKey uid) = some (some (now + 3600))) ∧
      (c.effCount now (rateKey uid) ≠ 0 →
        c'.rawExpiry (rateKey uid) = c.rawExpiry (rateKey uid))) ∧
    runChecks (some emptyCache) 0 7 11 = List.replicate 10 true ++ [false] := by
  constructor
  · have heff : c.effCount now (rateKey uid) =
        match c.lookupLive now (rateKey uid) with
        | none => 0
        | some e => e.count := rfl
    cases hl : c.lookupLive now (rateKey uid) with
    | none =>
      have he0 : c.effCount now (rateKey uid) = 0 := by rw [heff, hl]
      rw [crl_eval_fresh hl]
      refine ⟨_, rfl, ?_, ?_, ?_, ?_⟩
      · rw [he0, effCount_setEntry_future _ _ _ _ _ (by omega)]
      · rw [he0]; simp
      · intro _
        unfold Cache.rawExpiry
        rw [lookupRaw_setEntry]
        rfl
      · intro hne; exact absurd he0 hne
    | some e =>
      have hee : c.effCount now (rateKey uid) = e.count := by rw [heff, hl]
      by_cases h0 : e.count = 0
      · rw [crl_eval_zero hl h0]
        refine ⟨_, rfl, ?_, ?_, ?_, ?_⟩
        · rw [hee, h0, effCount_setEntry_future _ _ _ _ _ (by omega)]
        · rw [hee, h0]; simp
        · intro _
          unfold Cache.rawExpiry
          rw [lookupRaw_setEntry]
          rfl
        · intro hne; exact absurd (hee.trans h0) hne
      · rw [crl_eval_bump hl h0]
        refine ⟨_, rfl, ?_, ?_, ?_, ?_⟩
        · rw [hee]
          cases he : e.expires_at with
          | none => exact effCount_setEntry_noExpiry _ _ _ _
          | some t =>
            have ht := notExpired_of_lookupLive hl he
            exact effCount_setEntry_future _ _ _ _ _ (by omega)
        · rw [hee]; simp
        · intro habs; exact absurd (hee.symm.trans habs) h0
        · intro _
          unfold Cache.rawExpiry
          rw [lookupRaw_setEntry, lookupRaw_of_lookupLive hl]
          rfl
  · decide

/-- Witness for C6: on the empty cache the check stores the window entry with
expiry one hour out and passes. -/
theorem C6_check_rate_limit_witness :
    ∃ c', (CommentService.check_rate_limit (some emptyCache) 0 7).2 = some c' ∧
      c'.rawExpiry (rateKey 7) = some (some 3600) ∧
      (CommentService.check_rate_limit (some emptyCache) 0 7).1 = true := by
  obtain ⟨c', h1, h2, h3, h4, h5⟩ := (C6_check_rate_limit emptyCache 0 7).1
  refine ⟨c', h1, ?_, ?_⟩
  · simpa using h4 (by decide)
  · exact h3.mpr (by decide)

end CommentApp

namespace CommentApp

/-- Claim C2: when the rate-limit check passes, a comment-creation request
with a (truthy) `parent_id` is rejected with the depth-limit error — leaving
the store untouched — exactly when the parent's depth is at least 3, and
otherwise a comment is created. -/
theorem C2_depth_limit (db : DB) (cache : Option Cache) (now : Nat) (content : String)
    (aid uid pid : Nat)
    (hrl : (CommentService.check_rate_limit cache now uid).1 = true)
    (hpid : pid ≠ 0) :
    ((api_create_comment db cache now content aid uid (some pid)).1 = .depthLimited ↔
      3 ≤ CommentService.get_comment_depth db pid) ∧
    (3 ≤ CommentService.get_comment_depth db pid →
      (api_create_comment db cache now content aid uid (some pid)).2.1 = db) ∧
    (CommentService.get_comment_depth db pid < 3 →
      ∃ c, (api_create_comment db cache now content aid uid (some pid)).1 = .created c) := by
  have htruthy : optionTruthy (some pid) = true := by simp [optionTruthy, hpid]
  unfold api_create_comment
  simp only [hrl, htruthy, Option.getD_some, Bool.not_true, Bool.false_eq_true, if_false,
    Bool.true_and]
  by_cases hd : 3 ≤ CommentService.get_comment_depth db pid
  · rw [if_pos (by simpa using hd)]
    exact ⟨by simp [hd], fun _ => rfl, fun hlt => absurd hd (by omega)⟩
  · rw [if_neg (by simpa using hd)]
    refine ⟨by simp [hd], fun h3 => absurd h3 hd, fun _ => ⟨_, rfl⟩⟩

/-- Witness for C2, the spec's scenario A: a fresh reply chain C1 ← C2 ← C3 ←
C4 is accepted step by step (parent depths 0, 1, 2), and a reply to the
depth-3 comment C4 is rejected with the depth-limit error and no write. -/
theorem C2_depth_limit_witness :
    (∃ c, (api_create_comment dbA0 none 0 "c1" 1 9 none).1 = .created c) ∧
    (∃ c, (api_create_comment dbA1 none 1 "c2" 1 9 (some 1)).1 = .created c) ∧
    (∃ c, (api_create_comment dbA2 none 2 "c3" 1 9 (some 2)).1 = .created c) ∧
    (∃ c, (api_create_comment dbA3 none 3 "c4" 1 9 (some 3)).1 = .created c) ∧
    (api_create_comment dbA4 none 4 "c5" 1 9 (some 4)).1 = .depthLimited ∧
    (api_create_comment dbA4 none 4 "c5" 1 9 (some 4)).2.1 = dbA4 := by
  refine ⟨⟨_, rfl⟩, ?_, ?_, ?_, ?_, ?_⟩
  · exact (C2_depth_limit dbA1 none 1 "c2" 1 9 1 rfl (by decide)).2.2 (by decide)
  · exact (C2_depth_limit dbA2 none 2 "c3" 1 9 2 rfl (by decide)).2.2 (by decide)
  · exact (C2_depth_limit dbA3 none 3 "c4" 1 9 3 rfl (by decide)).2.2 (by decide)
  · exact (C2_depth_limit dbA4 none 4 "c5" 1 9 4 rfl (by decide)).1.mpr (by decide)
  · exact (C2_depth_limit dbA4 none 4 "c5" 1 9 4 rfl (by decide)).2.1 (by decide)

end CommentApp

namespace CommentApp

/-- Counterexample for C5 as stated: the listing query filters only on
article, top-level and approval — a deleted (tombstoned) comment that is
still approved does appear in the listing. -/
theorem C5_counterexample :
    (CommentService.get_article_comments dbC5 1 1 50).any (fun c => c.is_deleted) = true := by
  decide

theorem sorted_newestFirst (l : List Comment) :
    (CommentService.newestFirst l).Pairwise (fun a b => b.created_at ≤ a.created_at) :=
  List.sorted_insertionSort newerFirst l

theorem perm_newestFirst (l : List Comment) :
    List.Perm (CommentService.newestFirst l) l :=
  List.perm_insertionSort newerFirst l

theorem mem_topLevelApproved {db : DB} {aid : Nat} {c : Comment} :
    c ∈ CommentService.topLevelApproved db aid ↔
      c ∈ db.comments ∧ c.article_id = aid ∧ c.parent_id = none ∧ c.is_approved = true := by
  unfold CommentService.topLevelApproved
  rw [List.mem_filter]
  constructor
  · rintro ⟨hm, hp⟩
    simp only [Bool.and_eq_true, beq_iff_eq] at hp
    exact ⟨hm, hp.1.1, hp.1.2, hp.2⟩
  · rintro ⟨hm, h1, h2, h3⟩
    refine ⟨hm, ?_⟩
    simp [h1, h2, h3]

/-- Claim C5, amended: the top-level listing returns only stored comments of
the article that are top-level and approved — the deleted flag is not
consulted — ordered newest first, at most a page's worth; and with `page = 1`
and a page size at least the number of matching comments, every matching
comment (deleted or not) appears. -/
theorem C5_get_article_comments (db : DB) (aid page pp : Nat) :
    (∀ c ∈ CommentService.get_article_comments db aid page pp,
      c ∈ db.comments ∧ c.article_id = aid ∧ c.parent_id = none ∧ c.is_approved = true) ∧
    (CommentService.get_article_comments db aid page pp).Pairwise
      (fun a b => b.created_at ≤ a.created_at) ∧
    (CommentService.get_article_comments db aid page pp).length ≤ pp ∧
    (∀ c ∈ db.comments, c.article_id = aid → c.parent_id = none → c.is_approved = true →
      (CommentService.topLevelApproved db aid).length ≤ pp →
      c ∈ CommentService.get_article_comments db aid 1 pp) := by
  refine ⟨?_, ?_, ?_, ?_⟩
  · intro c hc
    unfold CommentService.get_article_comments at hc
    have hc2 : c ∈ (CommentService.newestFirst (CommentService.topLevelApproved db aid)).drop
        ((page - 1) * pp) := List.mem_of_mem_take hc
    have hc3 : c ∈ CommentService.newestFirst (CommentService.topLevelApproved db aid) :=
      List.mem_of_mem_drop hc2
    have hc4 : c ∈ CommentService.topLevelApproved db aid :=
      (perm_newestFirst _).mem_iff.mp hc3
    exact mem_topLevelApproved.mp hc4
  · unfold CommentService.get_article_comments
    have hsub : List.Sublist
        (((CommentService.newestFirst (CommentService.topLevelApproved db aid)).drop
          ((page - 1) * pp)).take pp)
        (CommentService.newestFirst (CommentService.topLevelApproved db aid)) :=
      (List.take_sublist _ _).trans (List.drop_sublist _ _)
    exact (sorted_newestFirst _).sublist hsub
  · unfold CommentService.get_article_comments
    rw [List.length_take]
    omega
  · intro c hm h1 h2 h3 hlen
    unfold CommentService.get_article_comments
    have hmem : c ∈ CommentService.topLevelApproved db aid :=
      mem_topLevelApproved.mpr ⟨hm, h1, h2, h3⟩
    have hsortedlen : (CommentService.newestFirst (CommentService.topLevelApproved db aid)).length =
        (CommentService.topLevelApproved db aid).length :=
      (perm_newestFirst _).length_eq
    have hmem2 : c ∈ CommentService.newestFirst (CommentService.topLevelApproved db aid) :=
      (perm_newestFirst _).mem_iff.mpr hmem
    simp only [Nat.sub_self, Nat.zero_mul, List.drop_zero]
    rw [List.take_of_length_le (by omega)]
    exact hmem2

/-- Witness for C5's amended statement: on a concrete store with two approved
top-level comments, the older of the two appears in the page-1 listing. -/
theorem C5_get_article_comments_witness :
    ({ id := 1, content := "old", article_id := 1, author_id := 7, parent_id := none,
       is_approved := true, is_deleted := false, is_flagged := false,
       flagged_reason := none, moderated_by := none, moderated_at := none,
       created_at := 5 } : Comment) ∈ CommentService.get_article_comments dbC5w 1 1 50 :=
  (C5_get_article_comments dbC5w 1 1 50).2.2.2 _ (by decide) (by decide) (by decide)
    (by decide) (by decide)

end CommentApp

namespace CommentApp

theorem moderateAction_approve (c : Comment) :
    CommentService.moderateAction "approve" c =
      { c with is_flagged := false, is_approved := true } := by
  unfold CommentService.moderateAction
  rw [if_pos (by decide)]

theorem moderateAction_reject (c : Comment) :
    CommentService.moderateAction "reject" c = { c with is_approved := false } := by
  unfold CommentService.moderateAction
  rw [if_neg (by decide), if_pos (by decide)]

theorem moderateAction_delete (c : Comment) :
    CommentService.moderateAction "delete" c =
      { c with is_deleted := true, content := "[Removed by moderator]" } := by
  unfold CommentService.moderateAction
  rw [if_neg (by decide), if_neg (by decide), if_pos (by decide)]

theorem moderateStamp_approve (mid now : Nat) (c : Comment) :
    CommentService.moderateStamp "approve" mid now c =
      { c with is_flagged := false, is_approved := true,
               moderated_by := some mid, moderated_at := some now } := by
  unfold CommentService.moderateStamp
  rw [moderateAction_approve]

theorem moderateStamp_reject (mid now : Nat) (c : Comment) :
    CommentService.moderateStamp "reject" mid now c =
      { c with is_approved := false,
               moderated_by := some mid, moderated_at := some now } := by
  unfold CommentService.moderateStamp
  rw [moderateAction_reject]

theorem moderateStamp_delete (mid now : Nat) (c : Comment) :
    CommentService.moderateStamp "delete" mid now c =
      { c with is_deleted := true, content := "[Removed by moderator]",
               moderated_by := some mid, moderated_at := some now } := by
  unfold CommentService.moderateStamp
  rw [moderateAction_delete]

theorem frameEq_refl (c : Comment) : frameEq c c :=
  ⟨rfl, rfl, rfl, rfl, rfl, rfl, rfl, rfl⟩

theorem forall₂_append_both {α : Type} {R : α → α → Prop} {l1 l2 u1 u2 : List α}
    (h1 : List.Forall₂ R l1 l2) (h2 : List.Forall₂ R u1 u2) :
    List.Forall₂ R (l1 ++ u1) (l2 ++ u2) := by
  induction h1 with
  | nil => simpa using h2
  | cons h _ ih => exact List.Forall₂.cons h ih

/-- Counterexample for C9 as stated: re-approving an already-approved,
unflagged comment succeeds but does not leave the stored state unchanged —
`moderated_by`/`moderated_at` are stamped, so the reported comment differs
from the original. -/
theorem C9_counterexample :
    (CommentService.moderate dbC9 100 1 5 "approve").isSome = true ∧
    (CommentService.moderate dbC9 100 1 5 "approve").map Prod.fst ≠ some c9comment ∧
    c9comment ∈ dbC9.comments ∧
    c9comment.is_approved = true ∧ c9comment.is_flagged = false := by
  decide

/-- Claim C9, amended: re-applying `moderate(id, "approve")` to an
already-approved, unflagged comment succeeds (no error) and leaves every
field of every stored comment unchanged except that the target's
`moderated_by` and `moderated_at` are freshly stamped; article counters and
reactions are untouched. -/
theorem C9_moderate_approve_idem (db : DB) (now cid mid : Nat) (c0 : Comment)
    (hfind : db.comments.find? (fun c => c.id == cid) = some c0)
    (happ : c0.is_approved = true) (hfl : c0.is_flagged = false) :
    ∃ db', CommentService.moderate db now cid mid "approve" =
        some ({ c0 with moderated_by := some mid, moderated_at := some now }, db') ∧
      db'.articles = db.articles ∧ db'.reactions = db.reactions ∧
      List.Forall₂ (fun a b => b = a ∨
        b = { a with moderated_by := some mid, moderated_at := some now })
        db.comments db'.comments := by
  obtain ⟨l1, l2, hsplit, hpc, hup⟩ := updateFirst_decomp
    (f := CommentService.moderateStamp "approve" mid now) hfind
  have hstamp : CommentService.moderateStamp "approve" mid now c0 =
      { c0 with moderated_by := some mid, moderated_at := some now } := by
    rw [moderateStamp_approve]
    obtain ⟨i, ct, aid, au, pid, ap, dl, fl, fr, mb, ma, ca⟩ := c0
    simp only at happ hfl
    subst happ
    subst hfl
    rfl
  unfold CommentService.moderate
  simp only [hfind]
  rw [if_neg (by decide)]
  refine ⟨{ db with comments := (updateFirst (fun c => c.id == cid)
      (CommentService.moderateStamp "approve" mid now) db.comments) }, ?_, rfl, rfl, ?_⟩
  · rw [hstamp]
  · rw [hup, hsplit]
    refine forall₂_append_both (List.forall₂_same.mpr fun x _ => Or.inl rfl)
      (List.Forall₂.cons ?_ (List.forall₂_same.mpr fun x _ => Or.inl rfl))
    right
    exact hstamp

/-- Witness for C9's amended statement at a concrete store. -/
theorem C9_moderate_approve_idem_witness :
    ∃ db', CommentService.moderate dbC9 100 1 5 "approve" =
        some ({ c9comment with moderated_by := some 5, moderated_at := some 100 }, db') ∧
      db'.articles = dbC9.articles := by
  obtain ⟨db', h1, h2, h3, h4⟩ :=
    C9_moderate_approve_idem dbC9 100 1 5 c9comment (by decide) rfl rfl
  exact ⟨db', h1, h2⟩

/-- Claim C10: `moderate` with action `approve` or `reject` on an existing
comment succeeds and modifies only the moderation fields — every stored
comment keeps its content, deleted flag, flagged reason, parent linkage,
article and author references and creation timestamp, and the article rows
(hence the owning article's comment count) and reaction rows are unchanged. -/
theorem C10_moderate_frame (db : DB) (now cid mid : Nat) (action : String) (c0 : Comment)
    (hfind : db.comments.find? (fun c => c.id == cid) = some c0)
    (haction : action = "approve" ∨ action = "reject") :
    ∃ c' db', CommentService.moderate db now cid mid action = some (c', db') ∧
      frameEq c0 c' ∧ db'.articles = db.articles ∧ db'.reactions = db.reactions ∧
      List.Forall₂ frameEq db.comments db'.comments := by
  have hfr : ∀ c : Comment, frameEq c (CommentService.moderateStamp action mid now c) := by
    intro c
    rcases haction with rfl | rfl
    · rw [moderateStamp_approve]; exact ⟨rfl, rfl, rfl, rfl, rfl, rfl, rfl, rfl⟩
    · rw [moderateStamp_reject]; exact ⟨rfl, rfl, rfl, rfl, rfl, rfl, rfl, rfl⟩
  have hne : ¬ ((action == "delete") = true) := by
    rcases haction with rfl | rfl <;> decide
  obtain ⟨l1, l2, hsplit, hpc, hup⟩ := updateFirst_decomp
    (f := CommentService.moderateStamp action mid now) hfind
  unfold CommentService.moderate
  simp only [hfind]
  rw [if_neg hne]
  refine ⟨CommentService.moderateStamp action mid now c0,
    { db with comments := (updateFirst (fun c => c.id == cid)
      (CommentService.moderateStamp action mid now) db.comments) },
    rfl, hfr c0, rfl, rfl, ?_⟩
  rw [hup, hsplit]
  exact forall₂_append_both (List.forall₂_same.mpr fun x _ => frameEq_refl x)
    (List.Forall₂.cons (hfr c0) (List.forall₂_same.mpr fun x _ => frameEq_refl x))

/-- Witness for C10 at a concrete store: approving a flagged comment touches
only the moderation fields. -/
theorem C10_moderate_frame_witness :
    ∃ c' db', CommentService.moderate dbC10 100 1 5 "approve" = some (c', db') ∧
      frameEq c10comment c' ∧ db'.articles = dbC10.articles := by
  obtain ⟨c', db', h1, h2, h3, h4, h5⟩ :=
    C10_moderate_frame dbC10 100 1 5 "approve" c10comment (by decide) (Or.inl rfl)
  exact ⟨c', db', h1, h2, h3⟩

end CommentApp

namespace CommentApp

/-- Claim C7 (code_bug evidence): with no comment 99 in the store, flagging it
returns the success acknowledgment and changes nothing; toggling a reaction on
it succeeds and inserts a dangling row; creating a reply under the missing
parent succeeds (the depth walk treats a missing parent as depth 0); and
moderating it dereferences a missing row (modelled `none`, an unhandled error
rather than a not-found outcome). -/
theorem C7_missing_comment_paths :
    api_flag_comment dbC7 99 7 "spam" = ("Comment flagged for review", dbC7) ∧
    (api_add_reaction dbC7 0 99 7 "like").map (fun p => p.1) = some "added" ∧
    (api_add_reaction dbC7 0 99 7 "like").map (fun p => p.2.reactions.length) = some 1 ∧
    (api_create_comment dbC7 none 0 "a reply" 1 7 (some 99)).1 =
      .created { id := 1, content := "a reply", article_id := 1, author_id := 7,
                 parent_id := some 99, is_approved := true, is_deleted := false,
                 is_flagged := false, flagged_reason := none, moderated_by := none,
                 moderated_at := none, created_at := 0 } ∧
    CommentService.moderate dbC7 0 99 5 "approve" = none := by
  decide

/-- Claim C8 (code_bug evidence): a creation request with empty content is not
rejected — the comment row is created with empty content and the article's
comment count is incremented. -/
theorem C8_empty_content_accepted :
    (api_create_comment dbC8 none 0 "" 1 7 none).1 =
      .created { id := 1, content := "", article_id := 1, author_id := 7,
                 parent_id := none, is_approved := true, is_deleted := false,
                 is_flagged := false, flagged_reason := none, moderated_by := none,
                 moderated_at := none, created_at := 0 } ∧
    (api_create_comment dbC8 none 0 "" 1 7 none).2.1.comments.length = 1 ∧
    (api_create_comment dbC8 none 0 "" 1 7 none).2.1.articles =
      [{ id := 1, comment_count := 1 }] := by
  decide

end CommentApp

namespace CommentApp

instance (db : DB) : Decidable (CountInv db) :=
  inferInstanceAs (Decidable (∀ a ∈ db.articles, a.comment_count = liveCount db a.id))

theorem liveLen_nil (aid : Nat) : liveLen [] aid = 0 := rfl

theorem liveCount_update_comment_count (d : DB) (x : Nat) (delta : Int) (aid : Nat) :
    liveCount (CommentService.update_comment_count d x delta) aid = liveLen d.comments aid := rfl

theorem countInv_shift (db db0 : DB) (x : Nat) (delta : Int)
    (hart : db0.articles = db.articles)
    (hinv : CountInv db)
    (h1 : ∀ aid, aid ≠ x → liveLen db0.comments aid = liveLen db.comments aid)
    (h2 : (liveLen db0.comments x : Int) = (liveLen db.comments x : Int) + delta) :
    CountInv (CommentService.update_comment_count db0 x delta) := by
  intro a' ha'
  have ha2 : a' ∈ db.articles.map (fun a =>
      if a.id == x then { a with comment_count := adjCount a.comment_count delta } else a) := by
    simpa [CommentService.update_comment_count, hart] using ha'
  obtain ⟨a, ha, rfl⟩ := List.mem_map.mp ha2
  have hcount := hinv a ha
  rw [show liveCount db a.id = liveLen db.comments a.id from rfl] at hcount
  by_cases hid : a.id = x
  · have hb : (a.id == x) = true := by simpa using hid
    simp only [hb, if_true]
    rw [liveCount_update_comment_count]
    unfold adjCount
    rw [hcount, hid]
    omega
  · have hb : ¬ ((a.id == x) = true) := by simpa using hid
    rw [if_neg hb]
    rw [liveCount_update_comment_count]
    rw [hcount]
    exact (h1 a.id hid).symm

theorem countInv_createC (db : DB) (content : String) (aid uid : Nat) (pid : Option Nat)
    (hinv : CountInv db) :
    CountInv (applyOp db (.createC content aid uid pid)) := by
  refine countInv_shift db
    { db with
      comments := db.comments ++
        [{ id := db.nextCommentId, content := content, article_id := aid, author_id := uid,
           parent_id := pid, is_approved := true, is_deleted := false, is_flagged := false,
           flagged_reason := none, moderated_by := none, moderated_at := none,
           created_at := 0 }]
      nextCommentId := db.nextCommentId + 1 }
    aid 1 rfl hinv ?_ ?_
  · intro aid' hne
    rw [liveLen_append, liveLen_cons, liveLen_nil]
    rw [if_neg (by rintro ⟨h1x, -⟩; exact hne h1x.symm)]
    omega
  · rw [liveLen_append, liveLen_cons, liveLen_nil]
    rw [if_pos (by exact ⟨rfl, rfl⟩)]
    push_cast
    omega

theorem countInv_selfDelete (db : DB) (cid uid : Nat)
    (hinv : CountInv db) (hok : okOp db (.selfDelete cid uid) = true) :
    CountInv (applyOp db (.selfDelete cid uid)) := by
  show CountInv (CommentService.delete db cid uid).2
  unfold CommentService.delete
  cases hf : db.comments.find? (fun x => x.id == cid && x.author_id == uid) with
  | none => exact hinv
  | some c =>
    have hdel : c.is_deleted = false := by
      simp only [okOp] at hok
      rw [hf] at hok
      simpa using hok
    obtain ⟨l1, l2, hsplit, hpc, hup⟩ := updateFirst_decomp
      (f := fun x => { x with is_deleted := true, content := "[Comment removed]" }) hf
    simp only
    refine countInv_shift db _ c.article_id (-1) rfl hinv ?_ ?_
    · intro aid hne
      rw [hup, hsplit, liveLen_append, liveLen_append, liveLen_cons, liveLen_cons]
      rw [if_neg (by rintro ⟨h1x, -⟩; exact hne h1x.symm)]
      rw [if_neg (by rintro ⟨h1x, -⟩; exact hne h1x.symm)]
    · rw [hup, hsplit, liveLen_append, liveLen_append, liveLen_cons, liveLen_cons]
      rw [if_neg (by rintro ⟨-, h2x⟩; simp at h2x)]
      rw [if_pos ⟨rfl, hdel⟩]
      push_cast
      omega

theorem countInv_modDelete (db : DB) (cid mid : Nat)
    (hinv : CountInv db) (hok : okOp db (.modDelete cid mid) = true) :
    CountInv (applyOp db (.modDelete cid mid)) := by
  show CountInv (match CommentService.moderate db 0 cid mid "delete" with
    | none => db
    | some p => p.2)
  unfold CommentService.moderate
  cases hf : db.comments.find? (fun c => c.id == cid) with
  | none => exact hinv
  | some c =>
    have hdel : c.is_deleted = false := by
      simp only [okOp] at hok
      rw [hf] at hok
      simpa using hok
    obtain ⟨l1, l2, hsplit, hpc, hup⟩ := updateFirst_decomp
      (f := CommentService.moderateStamp "delete" mid 0) hf
    simp only
    rw [if_pos (by decide)]
    refine countInv_shift db _ c.article_id (-1) rfl hinv ?_ ?_
    · intro aid hne
      rw [hup, hsplit, liveLen_append, liveLen_append, liveLen_cons, liveLen_cons]
      rw [moderateStamp_delete]
      rw [if_neg (by rintro ⟨h1x, -⟩; exact hne h1x.symm)]
      rw [if_neg (by rintro ⟨h1x, -⟩; exact hne h1x.symm)]
    · rw [hup, hsplit, liveLen_append, liveLen_append, liveLen_cons, liveLen_cons]
      rw [moderateStamp_delete]
      rw [if_neg (by rintro ⟨-, h2x⟩; simp at h2x)]
      rw [if_pos ⟨rfl, hdel⟩]
      push_cast
      omega

/-- Counterexample for C1 as stated: the soft-delete path has no
`is_deleted` filter, so re-deleting an already-deleted comment decrements the
stored count again, breaking the equality with the number of non-deleted
comments. -/
theorem C1_counterexample : ¬ ∀ ops : List Op, CountInv (applyOps dbC1 ops) := by
  intro h
  exact absurd (h opsC1) (by decide)

/-- Claim C1, amended: for every sequence of create, author self-delete and
moderator-delete operations in which no delete path is applied to an
already-deleted comment, every stored article's comment count equals its
number of non-deleted comments (create adds one, each effective delete
removes one; the floor at zero is never hit). -/
theorem C1_comment_count (db : DB) (ops : List Op) (hinv : CountInv db)
    (hok : okSeq db ops = true) : CountInv (applyOps db ops) := by
  induction ops generalizing db with
  | nil => simpa [applyOps] using hinv
  | cons op rest ih =>
    have hok2 : okOp db op = true ∧ okSeq (applyOp db op) rest = true := by
      have : okSeq db (op :: rest) = (okOp db op && okSeq (applyOp db op) rest) := rfl
      rw [this] at hok
      exact Bool.and_eq_true_iff.mp hok
    have hinv' : CountInv (applyOp db op) := by
      cases op with
      | createC content aid uid pid => exact countInv_createC db content aid uid pid hinv
      | selfDelete cid uid => exact countInv_selfDelete db cid uid hinv hok2.1
      | modDelete cid mid => exact countInv_modDelete db cid mid hinv hok2.1
    exact ih _ hinv' hok2.2

/-- Witness for C1's amended statement: a concrete clean sequence of creates
and single deletes preserves the invariant. -/
theorem C1_comment_count_witness : CountInv (applyOps dbC1w opsC1w) :=
  C1_comment_count dbC1w opsC1w (by decide) (by decide)

end CommentApp
